import Mathlib

/-!
Shallow embedding of `src/experiments/demo/demo.ipynb` (repository
benhills/tamm).  The notebook's first code cell (id e60790ff) builds, from
literal constants, the interface-position array `z`, the structure-tensor
array `c2`, the eigenvalue profile `lambdavec` and the spectral-coefficient
array `nlm`; the second code cell (id 877d7a51) feeds these into the external
layer-stack library and plots the returns.

Machine reals are modelled by exact rationals.  The complex128 values stored
in `nlm` are modelled as real/imaginary pairs of rationals.  The functions
imported from the external library (`c2_to_nlm`, `LayerStack`, `get_returns`,
`get_eigenbasis`, `plot_ODF`, `plot_returns`) are not part of the repository
source; they are kept abstract, passed in as parameters.
-/

namespace Tamm

/-- A complex128 value: real and imaginary part, as exact rationals. -/
abbrev C128 := ℚ × ℚ

/-- The `(l, m)` index listing returned as second component of `c2_to_nlm`. -/
abbrev LMType := List (ℤ × ℤ)

/-- One row of `nlm`: the 6 spectral ODF coefficients of a single layer. -/
abbrev NlmRow := Fin 6 → C128

/-- `H = 2000`, the ice column thickness (notebook literal). -/
def H : ℚ := 2000

/-- `N_layers = 100`, the number of layers (notebook literal). -/
abbrev N_layers : ℕ := 100

/-- Exact model of `np.linspace(start, stop, n)` sampled at index `i`:
the `i`-th of `n` evenly spaced points from `start` to `stop` inclusive. -/
def linspace (start stop : ℚ) (n : ℕ) (i : ℕ) : ℚ :=
  start + i * (stop - start) / ((n : ℚ) - 1)

/-- `z = np.linspace(0, -H, N_layers)`: the interface positions. -/
def z (i : Fin N_layers) : ℚ := linspace 0 (-H) N_layers i

/-- `z` as a list, to speak about its number of entries. -/
def zList : List ℚ := (List.finRange N_layers).map z

/-- `lambdavec = np.linspace(1.5/3, 0.9, N_layers)`: the principal
eigenvalue profile with depth. -/
def lambdavec (i : Fin N_layers) : ℚ := linspace ((3/2) / 3) (9/10) N_layers i

/-- Write value `v` into entry `(p, q)` of a 3×3 matrix, leaving every other
entry unchanged (one elementwise numpy assignment). -/
def setEntry (M : Matrix (Fin 3) (Fin 3) ℚ) (p q : Fin 3) (v : ℚ) :
    Matrix (Fin 3) (Fin 3) ℚ :=
  fun a b => if a = p ∧ b = q then v else M a b

/-- The structure tensor of layer `ii` after the three vectorized diagonal
assignments `c2[:,0,0] = 3/10*(1-lambdavec)`, `c2[:,1,1] = 7/10*(1-lambdavec)`,
`c2[:,2,2] = lambdavec` applied to the zero array `np.zeros((N_layers,3,3))`. -/
def c2 (ii : Fin N_layers) : Matrix (Fin 3) (Fin 3) ℚ :=
  setEntry (setEntry (setEntry (fun _ _ => 0) 0 0 (3/10 * (1 - lambdavec ii)))
    1 1 (7/10 * (1 - lambdavec ii))) 2 2 (lambdavec ii)

/-- `nlm = np.zeros((N_layers, 6), dtype=np.complex128)`. -/
def nlm0 : Fin N_layers → NlmRow := fun _ _ => (0 : C128)

/-- The conversion loop
`for ii in np.arange(N_layers): nlm[ii,:], lm = c2_to_nlm(c2[ii,:,:])`,
run with the external conversion routine `cf` standing for `c2_to_nlm`:
each iteration overwrites row `ii` of the accumulator with the first
component of `cf (c2 ii)`. -/
def conversionLoop (cf : Matrix (Fin 3) (Fin 3) ℚ → NlmRow × LMType) :
    Fin N_layers → NlmRow :=
  (List.finRange N_layers).foldl
    (fun A ii => Function.update A ii (cf (c2 ii)).1) nlm0

/-- `nlm` after the final assignment `nlm[0, 1:] = 0`: row 0 keeps its
column-0 entry and has columns 1 onward replaced by 0; all other rows are
the loop's output. -/
def nlmFinal (cf : Matrix (Fin 3) (Fin 3) ℚ → NlmRow × LMType) :
    Fin N_layers → NlmRow :=
  Function.update (conversionLoop cf) 0
    (fun j => if j = 0 then conversionLoop cf 0 j else 0)

/-- A fold of single-index overwrites leaves an index it never writes
unchanged. -/
lemma foldl_update_not_mem {n : ℕ} {β : Type} (g : Fin n → β)
    (A : Fin n → β) (l : List (Fin n)) (ii : Fin n) (h : ii ∉ l) :
    (l.foldl (fun B j => Function.update B j (g j)) A) ii = A ii := by
  induction l generalizing A with
  | nil => rfl
  | cons j t ih =>
      simp only [List.foldl_cons]
      have hj : ii ≠ j := fun hc => h (hc ▸ List.mem_cons_self j t)
      have ht : ii ∉ t := fun hc => h (List.mem_cons_of_mem j hc)
      rw [ih _ ht, Function.update_noteq hj]

/-- A fold of single-index overwrites, whose written value depends only on
the index, stores `g ii` at every index `ii` it writes. -/
lemma foldl_update_mem {n : ℕ} {β : Type} (g : Fin n → β)
    (A : Fin n → β) (l : List (Fin n)) (ii : Fin n) (h : ii ∈ l) :
    (l.foldl (fun B j => Function.update B j (g j)) A) ii = g ii := by
  induction l generalizing A with
  | nil => cases h
  | cons j t ih =>
      simp only [List.foldl_cons]
      by_cases hmem : ii ∈ t
      · exact ih _ hmem
      · have hj : ii = j := by
          rcases List.mem_cons.mp h with h1 | h2
          · exact h1
          · exact absurd h2 hmem
        subst hj
        rw [foldl_update_not_mem _ _ _ _ hmem, Function.update_same]

/-- The conversion loop writes every row exactly from its own structure
tensor: row `ii` of the loop output is `(cf (c2 ii)).1`. -/
lemma conversionLoop_eq (cf : Matrix (Fin 3) (Fin 3) ℚ → NlmRow × LMType)
    (ii : Fin N_layers) : conversionLoop cf ii = (cf (c2 ii)).1 :=
  foldl_update_mem _ _ _ ii (List.mem_finRange ii)

/-- A sample external conversion routine, used to instantiate theorems that
are generic in `c2_to_nlm`: every spectral coefficient is 1. -/
def cfOne : Matrix (Fin 3) (Fin 3) ℚ → NlmRow × LMType :=
  fun _ => (fun _ => ((1 : ℚ), (0 : ℚ)), [])

/-- Shared bounds on the eigenvalue profile: `lambdavec ii` lies in
`[1/2, 9/10]` for every layer. -/
lemma lambdavec_bounds (ii : Fin N_layers) :
    1/2 ≤ lambdavec ii ∧ lambdavec ii ≤ 9/10 := by
  have h0 : (0:ℚ) ≤ ((ii : ℕ) : ℚ) := by positivity
  have h99 : ((ii : ℕ) : ℚ) ≤ 99 := by
    have hlt : (ii : ℕ) ≤ 99 := Nat.lt_succ_iff.mp ii.isLt
    exact_mod_cast hlt
  simp only [lambdavec, linspace]
  norm_num
  constructor <;> linarith

/-- Entry (0,0) of the structure tensor. -/
lemma c2_diag0 (ii : Fin N_layers) : c2 ii 0 0 = 3/10 * (1 - lambdavec ii) := rfl

/-- Entry (1,1) of the structure tensor. -/
lemma c2_diag1 (ii : Fin N_layers) : c2 ii 1 1 = 7/10 * (1 - lambdavec ii) := rfl

/-- Entry (2,2) of the structure tensor. -/
lemma c2_diag2 (ii : Fin N_layers) : c2 ii 2 2 = lambdavec ii := rfl

/-- C1: after the conversion loop completes, the assignment `nlm[0, 1:] = 0`
sets every non-isotropic spectral component of the top layer (row 0, columns
1 through 5 of `nlm`) to zero: for any external conversion routine `cf`, the
final top-layer row vanishes at every index other than 0. -/
theorem nlm_top_layer_isotropic
    (cf : Matrix (Fin 3) (Fin 3) ℚ → NlmRow × LMType)
    (j : Fin 6) (hj : j ≠ 0) : nlmFinal cf 0 j = 0 := by
  simp [nlmFinal, hj]

/-- Witness for C1 at the concrete conversion routine `cfOne` and column 1. -/
theorem nlm_top_layer_isotropic_wit : nlmFinal cfOne 0 1 = 0 :=
  nlm_top_layer_isotropic cfOne 1 (by decide)

/-- C2: the isotropy-forcing assignment modifies only row 0, columns 1
onward: every row `ii ≠ 0` at every column, and the isotropic component
`nlm[0,0]`, keep the value produced by the preceding conversion loop. -/
theorem nlm_override_frame
    (cf : Matrix (Fin 3) (Fin 3) ℚ → NlmRow × LMType) :
    (∀ ii : Fin N_layers, ii ≠ 0 → ∀ j : Fin 6,
        nlmFinal cf ii j = conversionLoop cf ii j) ∧
    nlmFinal cf 0 0 = conversionLoop cf 0 0 := by
  constructor
  · intro ii hii j
    simp [nlmFinal, Function.update_noteq hii]
  · simp [nlmFinal]

/-- Witness for C2 at the concrete conversion routine `cfOne`, row 1,
column 0. -/
theorem nlm_override_frame_wit :
    nlmFinal cfOne 1 0 = conversionLoop cfOne 1 0 :=
  (nlm_override_frame cfOne).1 1 (by decide) 0

/-- C3: the interface-position array `z` has `N_layers` entries, starts at
`z 0 = 0`, is strictly decreasing at every consecutive pair of indices, and
ends at `-H` with `H = 2000`. -/
theorem z_profile :
    zList.length = N_layers ∧ z 0 = 0 ∧
    (∀ i : Fin 99, z i.succ < z i.castSucc) ∧ z 99 = -H := by
  refine ⟨by simp [zList], by norm_num [z, linspace], ?_, ?_⟩
  · intro i
    simp only [z, linspace, H, Fin.val_succ, Fin.coe_castSucc]
    push_cast
    have h0 : (0:ℚ) ≤ ((i : ℕ) : ℚ) := by positivity
    norm_num
    linarith
  · have hv : ((99 : Fin N_layers) : ℕ) = 99 := rfl
    norm_num [z, linspace, H, hv]

/-- C4: every layer's structure tensor is symmetric (it equals its
transpose), and indeed only the diagonal is assigned: every off-diagonal
entry is zero. -/
theorem c2_symmetric (ii : Fin N_layers) :
    Matrix.transpose (c2 ii) = c2 ii ∧
    (∀ p q : Fin 3, p ≠ q → c2 ii p q = 0) := by
  constructor
  · ext p q
    fin_cases p <;> fin_cases q <;>
      simp [c2, setEntry, Matrix.transpose_apply]
  · intro p q hpq
    fin_cases p <;> fin_cases q <;> simp_all [c2, setEntry]

/-- Witness for C4 at layer 0 and the off-diagonal entry (0, 1). -/
theorem c2_symmetric_wit : c2 0 0 1 = 0 :=
  (c2_symmetric 0).2 0 1 (by decide)

/-- C5 fails as stated: with the override in place, row 0 of the final `nlm`
need not equal the conversion of `c2 0`.  At the concrete conversion routine
`cfOne` (all coefficients 1), final entry `nlm[0,1]` is 0 while the
conversion output is 1. -/
theorem nlm_row0_not_conversion :
    nlmFinal cfOne 0 1 ≠ (cfOne (c2 0)).1 1 := by
  simp [nlmFinal, cfOne, Prod.ext_iff]

/-- C5 amended: every row `ii ≠ 0` of the final `nlm` equals the first
component of `c2_to_nlm (c2 ii)`; for row 0 only the isotropic component
survives the override, the remaining components being forced to 0. -/
theorem nlm_rows_from_conversion
    (cf : Matrix (Fin 3) (Fin 3) ℚ → NlmRow × LMType) :
    (∀ ii : Fin N_layers, ii ≠ 0 → ∀ j : Fin 6,
        nlmFinal cf ii j = (cf (c2 ii)).1 j) ∧
    nlmFinal cf 0 0 = (cf (c2 0)).1 0 ∧
    (∀ j : Fin 6, j ≠ 0 → nlmFinal cf 0 j = 0) := by
  refine ⟨?_, ?_, ?_⟩
  · intro ii hii j
    rw [show nlmFinal cf ii j = conversionLoop cf ii j by
          simp [nlmFinal, Function.update_noteq hii],
        conversionLoop_eq]
  · rw [show nlmFinal cf 0 0 = conversionLoop cf 0 0 by simp [nlmFinal],
        conversionLoop_eq]
  · intro j hj
    simp [nlmFinal, hj]

/-- Witness for the amended C5 at the concrete conversion routine `cfOne`,
row 1, column 0. -/
theorem nlm_rows_from_conversion_wit :
    nlmFinal cfOne 1 0 = (cfOne (c2 1)).1 0 :=
  (nlm_rows_from_conversion cfOne).1 1 (by decide) 0

/-- C8: every layer's structure tensor is a valid orientation tensor: the
eigenvalue `lambdavec ii` lies in `[1/2, 9/10]`, the three diagonal entries
each lie in `[0, 1]`, and they sum exactly to 1, in exact rational
arithmetic. -/
theorem c2_valid_orientation_tensor (ii : Fin N_layers) :
    (1/2 ≤ lambdavec ii ∧ lambdavec ii ≤ 9/10) ∧
    (0 ≤ c2 ii 0 0 ∧ c2 ii 0 0 ≤ 1) ∧
    (0 ≤ c2 ii 1 1 ∧ c2 ii 1 1 ≤ 1) ∧
    (0 ≤ c2 ii 2 2 ∧ c2 ii 2 2 ≤ 1) ∧
    c2 ii 0 0 + c2 ii 1 1 + c2 ii 2 2 = 1 := by
  obtain ⟨hlo, hhi⟩ := lambdavec_bounds ii
  rw [c2_diag0, c2_diag1, c2_diag2]
  refine ⟨⟨hlo, hhi⟩, ⟨?_, ?_⟩, ⟨?_, ?_⟩, ⟨?_, ?_⟩, by ring⟩ <;> linarith

/-- C9: the vertical component `c2[ii][2][2] = lambdavec ii` strictly
exceeds the other two diagonal entries of the layer's structure tensor, so
the profile is a vertical single-maximum fabric. -/
theorem c2_vertical_single_maximum (ii : Fin N_layers) :
    c2 ii 0 0 < c2 ii 2 2 ∧ c2 ii 1 1 < c2 ii 2 2 := by
  obtain ⟨hlo, hhi⟩ := lambdavec_bounds ii
  rw [c2_diag0, c2_diag1, c2_diag2]
  constructor <;> linarith

/-! ### Stateful view of cell e60790ff, for the determinism claim -/

/-- The mutable local variables of the array-construction part of cell
e60790ff.  An execution starts from an arbitrary prior state of these
variables; every statement of the cell overwrites one of them. -/
structure Env where
  z : Fin N_layers → ℚ
  c2 : Fin N_layers → Matrix (Fin 3) (Fin 3) ℚ
  lambdavec : Fin N_layers → ℚ
  nlm : Fin N_layers → NlmRow

/-- Sequential execution of the array construction of cell e60790ff as a
state transformer: the statements are modelled in source order, each reading
only literals and variables assigned earlier in the same run. -/
def runConstruct (cf : Matrix (Fin 3) (Fin 3) ℚ → NlmRow × LMType)
    (e0 : Env) : Env :=
  let e1 := { e0 with z := fun i => linspace 0 (-H) N_layers i }
  let e2 := { e1 with c2 := fun _ => fun _ _ => 0 }
  let e3 := { e2 with nlm := fun _ _ => (0 : C128) }
  let e4 := { e3 with lambdavec := fun i => linspace ((3/2) / 3) (9/10) N_layers i }
  let e5 := { e4 with c2 := fun ii => setEntry (e4.c2 ii) 0 0 (3/10 * (1 - e4.lambdavec ii)) }
  let e6 := { e5 with c2 := fun ii => setEntry (e5.c2 ii) 1 1 (7/10 * (1 - e5.lambdavec ii)) }
  let e7 := { e6 with c2 := fun ii => setEntry (e6.c2 ii) 2 2 (e6.lambdavec ii) }
  let e8 := { e7 with nlm := ((List.finRange N_layers).foldl
      (fun A ii => Function.update A ii (cf (e7.c2 ii)).1) e7.nlm) }
  { e8 with nlm := (Function.update e8.nlm 0
      (fun j => if j = 0 then e8.nlm 0 j else 0)) }

set_option maxRecDepth 8000 in
/-- The stateful view agrees with the direct definitions: the run's final
variables are exactly `z`, `c2`, `lambdavec` and `nlmFinal`, whatever the
initial variable state was. -/
lemma runConstruct_eq (cf : Matrix (Fin 3) (Fin 3) ℚ → NlmRow × LMType)
    (e : Env) :
    (runConstruct cf e).z = z ∧ (runConstruct cf e).c2 = c2 ∧
    (runConstruct cf e).lambdavec = lambdavec ∧
    (runConstruct cf e).nlm = nlmFinal cf :=
  ⟨rfl, rfl, rfl, rfl⟩

/-- C6: the construction is deterministic and reads no external input: with
the external conversion routine held fixed, runs started from any two
initial variable states produce identical arrays `z`, `c2`, `lambdavec` and
`nlm`. -/
theorem construct_deterministic
    (cf : Matrix (Fin 3) (Fin 3) ℚ → NlmRow × LMType) (e e' : Env) :
    (runConstruct cf e).z = (runConstruct cf e').z ∧
    (runConstruct cf e).c2 = (runConstruct cf e').c2 ∧
    (runConstruct cf e).lambdavec = (runConstruct cf e').lambdavec ∧
    (runConstruct cf e).nlm = (runConstruct cf e').nlm :=
  ⟨(runConstruct_eq cf e).1.trans (runConstruct_eq cf e').1.symm,
   (runConstruct_eq cf e).2.1.trans (runConstruct_eq cf e').2.1.symm,
   (runConstruct_eq cf e).2.2.1.trans (runConstruct_eq cf e').2.2.1.symm,
   (runConstruct_eq cf e).2.2.2.trans (runConstruct_eq cf e').2.2.2.symm⟩

/-! ### Guarded (bounds-checked) view of the conversion loop -/

/-- `c2` as a list with leading dimension `N_layers`. -/
def c2List : List (Matrix (Fin 3) (Fin 3) ℚ) := (List.finRange N_layers).map c2

/-- Bounds-checked list write: `some` of the updated list when the index is
in range, `none` otherwise. -/
def listSet? {α : Type} (l : List α) (i : ℕ) (v : α) : Option (List α) :=
  if i < l.length then some (l.set i v) else none

/-- One iteration of the bounds-checked conversion loop: read `c2[ii]` with
a guarded lookup, then write row `ii` of the accumulator with a guarded
update; an out-of-range access produces `none`. -/
def guardedStep (cf : Matrix (Fin 3) (Fin 3) ℚ → NlmRow × LMType)
    (A : List NlmRow) (ii : ℕ) : Option (List NlmRow) :=
  (c2List.get? ii).bind fun M => listSet? A ii (cf M).1

/-- The conversion loop with every array access bounds-checked, iterating
`ii` over `range N_layers` starting from the zero `nlm` array. -/
def loopGuarded (cf : Matrix (Fin 3) (Fin 3) ℚ → NlmRow × LMType) :
    Option (List NlmRow) :=
  (List.range N_layers).foldlM (guardedStep cf)
    (List.replicate N_layers (fun _ => (0 : C128)))

lemma guardedStep_eq (cf : Matrix (Fin 3) (Fin 3) ℚ → NlmRow × LMType)
    (A : List NlmRow) (ii : ℕ) (hii : ii < N_layers)
    (hA : A.length = N_layers) :
    ∃ M, guardedStep cf A ii = some (A.set ii (cf M).1) := by
  have hlen : ii < c2List.length := by simpa [c2List] using hii
  refine ⟨c2List.get ⟨ii, hlen⟩, ?_⟩
  have hM : c2List.get? ii = some (c2List.get ⟨ii, hlen⟩) :=
    List.get?_eq_get hlen
  simp [guardedStep, hM, listSet?, hA, hii, List.get?_eq_getElem?,
    List.getElem?_eq_getElem hlen, List.get_eq_getElem]

lemma loopGuarded_aux (cf : Matrix (Fin 3) (Fin 3) ℚ → NlmRow × LMType) :
    ∀ (l : List ℕ) (A : List NlmRow), (∀ ii ∈ l, ii < N_layers) →
      A.length = N_layers →
      ∃ L, l.foldlM (guardedStep cf) A = some L ∧ L.length = N_layers := by
  intro l
  induction l with
  | nil => exact fun A _ hA => ⟨A, rfl, hA⟩
  | cons ii t ih =>
      intro A hmem hA
      have hii : ii < N_layers := hmem ii (List.mem_cons_self ii t)
      obtain ⟨M, hM⟩ := guardedStep_eq cf A ii hii hA
      obtain ⟨L, hL, hLlen⟩ := ih (A.set ii (cf M).1)
        (fun j hj => hmem j (List.mem_cons_of_mem ii hj)) (by simp [hA])
      exact ⟨L, by simp [List.foldlM_cons, hM, hL], hLlen⟩

/-- C10: every array access in the conversion loop is in bounds: over the
loop range `0..N_layers-1`, the guarded reads of `c2[ii]` and guarded writes
of `nlm[ii]` all succeed, so the bounds-checked loop never returns `none`. -/
theorem loop_indexing_safe (cf : Matrix (Fin 3) (Fin 3) ℚ → NlmRow × LMType) :
    (loopGuarded cf).isSome = true := by
  obtain ⟨L, hL, _⟩ := loopGuarded_aux cf (List.range N_layers)
    (List.replicate N_layers (fun _ => (0 : C128)))
    (fun ii hii => List.mem_range.mp hii) (by simp)
  simp [loopGuarded, hL]

/-! ### Fallible view of the whole script, for the error-handling claim

Cells e60790ff and 877d7a51 call six external routines: `c2_to_nlm`,
`plot_ODF`, the `LayerStack` constructor, `get_returns`, `get_eigenbasis`
and `plot_returns`.  Each is modelled as an `Except`-valued function; `S`,
`R` and `P` are the abstract types of the layer stack object, the returns
tuple and the eigenbasis tuple. -/

/-- The external interface of the script: the library and plotting routines
it imports, each allowed to fail with an error of type `E`. -/
structure Ext (E S R P : Type) where
  c2_to_nlm : Matrix (Fin 3) (Fin 3) ℚ → Except E (NlmRow × LMType)
  plot_ODF : NlmRow → LMType → ℚ → Except E Unit
  layerStack : (Fin N_layers → NlmRow) → (Fin N_layers → ℚ) → ℕ →
    List ℚ → List ℚ → List ℚ → Except E S
  get_returns : S → ℚ → ℚ → ℚ → Except E R
  get_eigenbasis : S → Except E P
  plot_returns : S → R → P → Except E Unit

/-- `N_frames = 50` (cell 877d7a51 literal). -/
def N_frames : ℕ := 50

/-- `epsa = 3.17`, single-grain permittivity perpendicular to the c-axis. -/
def epsa : ℚ := 317/100

/-- `epsc = epsa - 0.034`, single-grain permittivity parallel to the
c-axis. -/
def epsc : ℚ := epsa - 34/1000

/-- `sigma = 1e-5`, isotropic macroscopic conductivity. -/
def sigma : ℚ := 1/100000

/-- `E0 = 1e3`, Tx E-field amplitude. -/
def E0 : ℚ := 1000

/-- `f = 179e6`, Tx frequency in Hz. -/
def f : ℚ := 179000000

/-- `alpha = np.deg2rad(0) = 0`, angle of incidence. -/
def alpha : ℚ := 0

/-- The conversion loop with the fallible external `c2_to_nlm`: each
iteration converts `c2 ii`, overwrites row `ii` of the accumulator and
rebinds `lm`; an error of any call is the loop's result.  The initial `lm`
value `[]` is never kept, since `N_layers > 0` means the loop body always
overwrites it. -/
def loopM {E S R P : Type} (ext : Ext E S R P) :
    Except E ((Fin N_layers → NlmRow) × LMType) :=
  (List.finRange N_layers).foldlM
    (fun acc ii =>
      (ext.c2_to_nlm (c2 ii)).bind fun r =>
        Except.ok (Function.update acc.1 ii r.1, r.2))
    (nlm0, ([] : LMType))

/-- The whole script (both code cells), in source order, with every external
call fallible: convert each layer, force the top layer isotropic, draw the
three ODF plots (indices 1, `N_layers/2` and -1, with depth labels in km),
build the layer stack, ask for the returns and the eigenbasis, and plot the
returns.  The script itself catches nothing and validates nothing. -/
def scriptRun {E S R P : Type} (ext : Ext E S R P) : Except E Unit :=
  (loopM ext).bind fun res =>
    let nlmA := Function.update res.1 0
      (fun j => if j = 0 then res.1 0 j else 0)
    (ext.plot_ODF (nlmA 1) res.2 (z 1 * (1/1000))).bind fun _ =>
    (ext.plot_ODF (nlmA 50) res.2 (z 50 * (1/1000))).bind fun _ =>
    (ext.plot_ODF (nlmA 99) res.2 (z 99 * (1/1000))).bind fun _ =>
    (ext.layerStack nlmA z N_frames [epsa] [epsc] [sigma]).bind fun lstack =>
    (ext.get_returns lstack E0 f alpha).bind fun rets =>
    (ext.get_eigenbasis lstack).bind fun eig =>
    ext.plot_returns lstack rets eig

/-- `e` is an error actually produced by one of the six external routines
on some input. -/
def ErrFromExt {E S R P : Type} (ext : Ext E S R P) (e : E) : Prop :=
  (∃ M, ext.c2_to_nlm M = Except.error e) ∨
  (∃ row lm zv, ext.plot_ODF row lm zv = Except.error e) ∨
  (∃ a b nf ea ec sg, ext.layerStack a b nf ea ec sg = Except.error e) ∨
  (∃ s x y w, ext.get_returns s x y w = Except.error e) ∨
  (∃ s, ext.get_eigenbasis s = Except.error e) ∨
  (∃ s r p, ext.plot_returns s r p = Except.error e)

/-- All six external routines succeed on every input. -/
def AllOk {E S R P : Type} (ext : Ext E S R P) : Prop :=
  (∀ M, ∃ v, ext.c2_to_nlm M = Except.ok v) ∧
  (∀ row lm zv, ∃ u, ext.plot_ODF row lm zv = Except.ok u) ∧
  (∀ a b nf ea ec sg, ∃ s, ext.layerStack a b nf ea ec sg = Except.ok s) ∧
  (∀ s x y w, ∃ r, ext.get_returns s x y w = Except.ok r) ∧
  (∀ s, ∃ p, ext.get_eigenbasis s = Except.ok p) ∧
  (∀ s r p, ∃ u, ext.plot_returns s r p = Except.ok u)

/-- An error of a bind comes either from the first computation or from the
continuation at the first computation's value. -/
lemma bind_error_cases {E α β : Type} (x : Except E α) (g : α → Except E β)
    (e : E) (h : x.bind g = Except.error e) :
    x = Except.error e ∨ ∃ a, x = Except.ok a ∧ g a = Except.error e := by
  cases x with
  | error e0 =>
      left
      cases h
      rfl
  | ok a => exact Or.inr ⟨a, rfl, h⟩

/-- An error of the conversion loop is an error of `ext.c2_to_nlm` on some
structure tensor. -/
lemma loopM_error {E S R P : Type} (ext : Ext E S R P) :
    ∀ (l : List (Fin N_layers)) (acc : (Fin N_layers → NlmRow) × LMType)
      (e : E),
      l.foldlM (fun acc ii =>
          (ext.c2_to_nlm (c2 ii)).bind fun r =>
            Except.ok (Function.update acc.1 ii r.1, r.2)) acc =
        Except.error e →
      ∃ M, ext.c2_to_nlm M = Except.error e := by
  intro l
  induction l with
  | nil => intro acc e h; cases h
  | cons ii t ih =>
      intro acc e h
      rw [List.foldlM_cons] at h
      rcases bind_error_cases _ _ _ h with h1 | ⟨b, hb, hrest⟩
      · rcases bind_error_cases _ _ _ h1 with h2 | ⟨r, _, hr⟩
        · exact ⟨c2 ii, h2⟩
        · cases hr
      · exact ih b e hrest

/-- If `ext.c2_to_nlm` succeeds on every input, the conversion loop
succeeds. -/
lemma loopM_ok {E S R P : Type} (ext : Ext E S R P)
    (hcf : ∀ M, ∃ v, ext.c2_to_nlm M = Except.ok v) :
    ∀ (l : List (Fin N_layers)) (acc : (Fin N_layers → NlmRow) × LMType),
      ∃ v, l.foldlM (fun acc ii =>
          (ext.c2_to_nlm (c2 ii)).bind fun r =>
            Except.ok (Function.update acc.1 ii r.1, r.2)) acc =
        Except.ok v := by
  intro l
  induction l with
  | nil => exact fun acc => ⟨acc, rfl⟩
  | cons ii t ih =>
      intro acc
      obtain ⟨r, hr⟩ := hcf (c2 ii)
      obtain ⟨v, hv⟩ := ih (Function.update acc.1 ii r.1, r.2)
      exact ⟨v, by rw [List.foldlM_cons, hr]; exact hv⟩

/-- C7: the script catches no exceptions and validates nothing: any error it
produces is an error raised by one of the six external routines, propagated
unchanged; and if every external routine succeeds on every input, the script
succeeds. -/
theorem script_error_characterization {E S R P : Type} (ext : Ext E S R P) :
    (∀ e, scriptRun ext = Except.error e → ErrFromExt ext e) ∧
    (AllOk ext → ∃ u, scriptRun ext = Except.ok u) := by
  constructor
  · intro e he
    rw [scriptRun] at he
    rcases bind_error_cases _ _ _ he with h1 | ⟨res, _, he⟩
    · exact Or.inl (loopM_error ext _ _ _ h1)
    rcases bind_error_cases _ _ _ he with h1 | ⟨_, _, he⟩
    · exact Or.inr (Or.inl ⟨_, _, _, h1⟩)
    rcases bind_error_cases _ _ _ he with h1 | ⟨_, _, he⟩
    · exact Or.inr (Or.inl ⟨_, _, _, h1⟩)
    rcases bind_error_cases _ _ _ he with h1 | ⟨_, _, he⟩
    · exact Or.inr (Or.inl ⟨_, _, _, h1⟩)
    rcases bind_error_cases _ _ _ he with h1 | ⟨lstack, _, he⟩
    · exact Or.inr (Or.inr (Or.inl ⟨_, _, _, _, _, _, h1⟩))
    rcases bind_error_cases _ _ _ he with h1 | ⟨rets, _, he⟩
    · exact Or.inr (Or.inr (Or.inr (Or.inl ⟨_, _, _, _, h1⟩)))
    rcases bind_error_cases _ _ _ he with h1 | ⟨eig, _, he⟩
    · exact Or.inr (Or.inr (Or.inr (Or.inr (Or.inl ⟨_, h1⟩))))
    exact Or.inr (Or.inr (Or.inr (Or.inr (Or.inr ⟨_, _, _, he⟩))))
  · rintro ⟨hcf, hodf, hls, hgr, hge, hpr⟩
    obtain ⟨res, hres⟩ := loopM_ok ext hcf (List.finRange N_layers)
      (nlm0, ([] : LMType))
    have hloop : loopM ext = Except.ok res := hres
    obtain ⟨u1, h1⟩ := hodf _ _ _
    obtain ⟨u2, h2⟩ := hodf _ _ _
    obtain ⟨u3, h3⟩ := hodf _ _ _
    obtain ⟨s, hs⟩ := hls _ _ _ _ _ _
    obtain ⟨r, hr⟩ := hgr s _ _ _
    obtain ⟨p, hp⟩ := hge s
    obtain ⟨u4, h4⟩ := hpr s r p
    refine ⟨u4, ?_⟩
    rw [scriptRun, hloop]
    simp only [Except.bind]
    rw [h1]
    simp only [Except.bind]
    rw [h2]
    simp only [Except.bind]
    rw [h3]
    simp only [Except.bind]
    rw [hs]
    simp only [Except.bind]
    rw [hr]
    simp only [Except.bind]
    rw [hp]
    simp only [Except.bind]
    exact h4

/-- A concrete external interface on which every routine succeeds. -/
def extOk : Ext Unit Unit Unit Unit where
  c2_to_nlm := fun _ => Except.ok (fun _ => ((0 : ℚ), (0 : ℚ)), [])
  plot_ODF := fun _ _ _ => Except.ok ()
  layerStack := fun _ _ _ _ _ _ => Except.ok ()
  get_returns := fun _ _ _ _ => Except.ok ()
  get_eigenbasis := fun _ => Except.ok ()
  plot_returns := fun _ _ _ => Except.ok ()

/-- Witness for C7 at the concrete interface `extOk`: since all its routines
succeed, the script run succeeds. -/
theorem script_error_characterization_wit :
    ∃ u, scriptRun extOk = Except.ok u :=
  (script_error_characterization extOk).2
    ⟨fun _ => ⟨_, rfl⟩, fun _ _ _ => ⟨_, rfl⟩, fun _ _ _ _ _ _ => ⟨_, rfl⟩,
     fun _ _ _ _ => ⟨_, rfl⟩, fun _ => ⟨_, rfl⟩, fun _ _ _ => ⟨_, rfl⟩⟩

end Tamm
